import Mathlib

/-!
Verification development for the slimfit wellness-tracking backend.

The Lean definitions below are a shallow embedding of the JavaScript
source.  JS numbers are modelled by `JsNum`: either NaN, plus or minus
infinity, or a finite rational.  Using exact rationals instead of IEEE
doubles means float rounding and overflow are not modelled; all values
appearing in the verified claims are small decimals where double and
rational semantics agree.  Strings are Lean `String`s processed as
`List Char`; JS UTF-16 `length` is modelled by `utf16Len`.
-/

namespace SlimFit

/-- JsNum models the result of a JavaScript numeric conversion:
`NaN`, `Infinity`, `-Infinity`, or a finite value (as an exact rational). -/
inductive JsNum where
  | nan
  | posInf
  | negInf
  | fin (q : ℚ)
deriving DecidableEq

/-- Decimal digit test, as in the JS lexical grammar (code points of
the digits are 48 to 57). -/
def isDigitChar (c : Char) : Bool := 48 ≤ c.toNat && c.toNat ≤ 57

/-- Numeric value of a decimal digit character. -/
def digitVal (c : Char) : ℕ := c.toNat - 48

/-- Hexadecimal digit test. -/
def isHexDigitChar (c : Char) : Bool :=
  isDigitChar c || (97 ≤ c.toNat && c.toNat ≤ 102) || (65 ≤ c.toNat && c.toNat ≤ 70)

/-- Numeric value of a hexadecimal digit character. -/
def hexVal (c : Char) : ℕ :=
  if isDigitChar c then digitVal c
  else if 97 ≤ c.toNat && c.toNat ≤ 102 then c.toNat - 97 + 10
  else c.toNat - 65 + 10

/-- Longest prefix of decimal digits, with the remainder. -/
def takeDigits : List Char → List Char × List Char
  | [] => ([], [])
  | c :: cs =>
    if isDigitChar c then
      let p := takeDigits cs
      (c :: p.1, p.2)
    else ([], c :: cs)

/-- Longest prefix of hexadecimal digits, with the remainder. -/
def takeHexDigits : List Char → List Char × List Char
  | [] => ([], [])
  | c :: cs =>
    if isHexDigitChar c then
      let p := takeHexDigits cs
      (c :: p.1, p.2)
    else ([], c :: cs)

/-- Value of a decimal digit string (most significant digit first). -/
def natOfDigits (ds : List Char) : ℕ :=
  ds.foldl (fun a c => 10 * a + digitVal c) 0

/-- Value of a hexadecimal digit string. -/
def natOfHexDigits (ds : List Char) : ℕ :=
  ds.foldl (fun a c => 16 * a + hexVal c) 0

/-- JS StrWhiteSpace characters skipped by parseFloat, parseInt and Number. -/
def isJsWhitespace (c : Char) : Bool :=
  c = ' ' || c = '\t' || c = '\n' || c = '\r' ||
  c.toNat = 0xB || c.toNat = 0xC || c.toNat = 0xA0 || c.toNat = 0xFEFF ||
  c.toNat = 0x1680 || (0x2000 ≤ c.toNat && c.toNat ≤ 0x200A) ||
  c.toNat = 0x2028 || c.toNat = 0x2029 || c.toNat = 0x202F ||
  c.toNat = 0x205F || c.toNat = 0x3000

/-- Drop leading JS whitespace. -/
def dropWs : List Char → List Char
  | [] => []
  | c :: cs => if isJsWhitespace c then dropWs cs else c :: cs

/-- Consume an optional sign; returns (isNegative, rest). -/
def splitSign (cs : List Char) : Bool × List Char :=
  match cs with
  | c :: rest =>
    if c = '+' then (false, rest)
    else if c = '-' then (true, rest)
    else (false, c :: rest)
  | [] => (false, [])

/-- List prefix test. -/
def isPrefixList : List Char → List Char → Bool
  | [], _ => true
  | _ :: _, [] => false
  | p :: ps, c :: cs => p = c && isPrefixList ps cs

/-- Does the character list start with the literal Infinity token. -/
def startsWithInfinityTok (cs : List Char) : Bool :=
  isPrefixList ['I', 'n', 'f', 'i', 'n', 'i', 't', 'y'] cs

/-- Apply a JS sign flag to a rational. -/
def applySign (neg : Bool) (q : ℚ) : ℚ := if neg then -q else q

/-- Longest decimal mantissa prefix: digits, optionally a dot and more
digits; returns its rational value and the unconsumed remainder, or
`none` when no digit is present before the non-numeric remainder. -/
def parseMantissa (cs : List Char) : Option (ℚ × List Char) :=
  let p := takeDigits cs
  match p.2 with
  | '.' :: rest =>
    let f := takeDigits rest
    if p.1 = [] ∧ f.1 = [] then none
    else some ((natOfDigits p.1 : ℚ) + (natOfDigits f.1 : ℚ) / (10 : ℚ) ^ f.1.length, f.2)
  | _ => if p.1 = [] then none else some ((natOfDigits p.1 : ℚ), p.2)

/-- Exponent part of a float literal as consumed by JS parseFloat:
`e`/`E`, optional sign, digits.  A malformed exponent is ignored
(contributes exponent 0), as parseFloat only consumes well-formed parts. -/
def parseExpPart (cs : List Char) : ℤ :=
  match cs with
  | c :: rest =>
    if c = 'e' ∨ c = 'E' then
      let sg := splitSign rest
      let p := takeDigits sg.2
      if p.1 = [] then 0
      else if sg.1 then -(natOfDigits p.1 : ℤ) else (natOfDigits p.1 : ℤ)
    else 0
  | [] => 0

/-- Model of the JS global parseFloat: skip whitespace, optional sign,
`Infinity`, or the longest decimal-literal prefix; NaN when no numeric
prefix exists. -/
def jsParseFloat (s : String) : JsNum :=
  let cs := dropWs s.toList
  let sg := splitSign cs
  if startsWithInfinityTok sg.2 then
    if sg.1 then .negInf else .posInf
  else
    match parseMantissa sg.2 with
    | none => .nan
    | some qr =>
      let e := parseExpPart qr.2
      .fin (applySign sg.1 (qr.1 * (10 : ℚ) ^ e))

/-- Model of the JS global parseInt with no radix argument: skip
whitespace, optional sign, then either a `0x`/`0X` hexadecimal literal
or the longest decimal-digit prefix; NaN when no digit is present. -/
def jsParseInt (s : String) : JsNum :=
  let cs := dropWs s.toList
  let sg := splitSign cs
  let hex : Bool :=
    match sg.2 with
    | a :: b :: _ => a = '0' && (b = 'x' || b = 'X')
    | _ => false
  if hex then
    let p := takeHexDigits (sg.2.drop 2)
    if p.1 = [] then .nan
    else .fin (applySign sg.1 (natOfHexDigits p.1 : ℚ))
  else
    let p := takeDigits sg.2
    if p.1 = [] then .nan
    else .fin (applySign sg.1 (natOfDigits p.1 : ℚ))

/-- Drop trailing JS whitespace. -/
def dropWsRight (cs : List Char) : List Char :=
  ((dropWs cs.reverse)).reverse

/-- Exponent of a full-string numeric literal for the Number conversion:
the whole remainder must be a well-formed exponent (or empty). -/
def parseExpAll (cs : List Char) : Option ℤ :=
  match cs with
  | [] => some 0
  | c :: rest =>
    if c = 'e' ∨ c = 'E' then
      let sg := splitSign rest
      let p := takeDigits sg.2
      if p.1 = [] ∨ p.2 ≠ [] then none
      else if sg.1 then some (-(natOfDigits p.1 : ℤ)) else some (natOfDigits p.1 : ℤ)
    else none

/-- Model of the JS Number() string conversion: trim whitespace on both
sides, empty means 0, otherwise the whole string must be one numeric
literal (decimal with optional exponent, hexadecimal, or Infinity). -/
def jsNumber (s : String) : JsNum :=
  let cs := dropWsRight (dropWs s.toList)
  match cs with
  | [] => .fin 0
  | '0' :: 'x' :: rest =>
    if rest ≠ [] ∧ rest.all isHexDigitChar then .fin (natOfHexDigits rest : ℚ) else .nan
  | '0' :: 'X' :: rest =>
    if rest ≠ [] ∧ rest.all isHexDigitChar then .fin (natOfHexDigits rest : ℚ) else .nan
  | _ =>
    let sg := splitSign cs
    if startsWithInfinityTok sg.2 ∧ sg.2.length = 8 then
      if sg.1 then .negInf else .posInf
    else
      match parseMantissa sg.2 with
      | none => .nan
      | some qr =>
        match parseExpAll qr.2 with
        | none => .nan
        | some e => .fin (applySign sg.1 (qr.1 * (10 : ℚ) ^ e))

/-- NaN test, modelling the JS isNaN check after a numeric conversion. -/
def JsNum.isNaN : JsNum → Bool
  | .nan => true
  | _ => false

/-- JS addition over modelled numbers (used for h plus m over 60 in the
sleep parser); opposite infinities and NaN give NaN. -/
def JsNum.add : JsNum → JsNum → JsNum
  | .nan, _ => .nan
  | _, .nan => .nan
  | .posInf, .negInf => .nan
  | .negInf, .posInf => .nan
  | .posInf, _ => .posInf
  | _, .posInf => .posInf
  | .negInf, _ => .negInf
  | _, .negInf => .negInf
  | .fin a, .fin b => .fin (a + b)

/-- JS division by a positive rational constant. -/
def JsNum.divConst (x : JsNum) (d : ℚ) : JsNum :=
  match x with
  | .nan => .nan
  | .posInf => .posInf
  | .negInf => .negInf
  | .fin q => .fin (q / d)

/-- UTF-16 length of a string, matching the JS String length property. -/
def utf16Len (s : String) : ℕ :=
  s.toList.foldl (fun a c => a + (if 0x10000 ≤ c.toNat then 2 else 1)) 0

/-- Replace the first comma with a dot, as the JS expression
`text.replace(',', '.')` does (String.replace with a string pattern
replaces only the first occurrence). -/
def replaceFirstCommaList : List Char → List Char
  | [] => []
  | c :: cs => if c = ',' then '.' :: cs else c :: replaceFirstCommaList cs

/-- String version of `replaceFirstCommaList`. -/
def replaceFirstComma (s : String) : String :=
  String.mk (replaceFirstCommaList s.toList)

/-- Lower-casing as JS toLowerCase acts on the alphabets used by the
keyword tables: ASCII letters and the Ukrainian/Cyrillic letters. -/
def jsToLowerChar (c : Char) : Char :=
  if 'A' ≤ c ∧ c ≤ 'Z' then Char.ofNat (c.toNat + 32)
  else if 0x410 ≤ c.toNat ∧ c.toNat ≤ 0x42F then Char.ofNat (c.toNat + 32)
  else if c.toNat = 0x406 then Char.ofNat 0x456
  else if c.toNat = 0x404 then Char.ofNat 0x454
  else if c.toNat = 0x407 then Char.ofNat 0x457
  else if c.toNat = 0x401 then Char.ofNat 0x451
  else c

/-- JS String toLowerCase over the supported alphabets. -/
def jsToLower (s : String) : String :=
  String.mk (s.toList.map jsToLowerChar)

/-! ## ReportParser (src/src/services/fatsecret/client.js, class ReportParser)

Each parser mirrors one method: a JS numeric conversion, range guard,
and the final Joi schema validation.  The Joi bound checks are modelled
as explicit boolean validators; a Joi number min/max rejects plus and
minus infinity, so only the finite case can validate. -/

/-- Weight unit as constrained by the weight Joi schema. -/
inductive WeightUnit where
  | kg
  | lbs
deriving DecidableEq

/-- Source tag used by the parsers (Joi valid manual, garmin, screenshot). -/
inductive EntrySource where
  | manual
  | garmin
  | screenshot
deriving DecidableEq

/-- Result shape of ReportParser.parseWeight. -/
structure WeightEntry where
  value : ℚ
  unit : WeightUnit
  source : EntrySource
deriving DecidableEq

/-- Result shape of ReportParser.parseSteps. -/
structure StepsEntry where
  count : ℚ
  source : EntrySource
deriving DecidableEq

/-- Sleep quality enum of the sleep Joi schema (default fair). -/
inductive SleepQuality where
  | good
  | fair
  | poor
deriving DecidableEq

/-- Result shape of ReportParser.parseSleep (duration in hours). -/
structure SleepEntry where
  duration : ℚ
  quality : SleepQuality
  source : EntrySource
deriving DecidableEq

/-- Canonical training types of the training schema and type table. -/
inductive TrainingType where
  | running
  | cycling
  | gym
  | swimming
  | walking
  | other
deriving DecidableEq

/-- Training intensity enum. -/
inductive Intensity where
  | low
  | medium
  | high
deriving DecidableEq

/-- Result shape of ReportParser.parseTraining. -/
structure TrainingEntry where
  ttype : TrainingType
  duration : ℚ
  intensity : Intensity
  source : EntrySource
deriving DecidableEq

/-- Canonical mood values of the mood schema and mood table. -/
inductive MoodValue where
  | excellent
  | good
  | neutral
  | bad
  | terrible
deriving DecidableEq

/-- Result shape of ReportParser.parseMood. -/
structure MoodEntry where
  value : MoodValue
deriving DecidableEq

/-- Joi weightSchema bound check: value between 20 and 300. -/
def weightSchemaOk (w : WeightEntry) : Bool :=
  decide (20 ≤ w.value ∧ w.value ≤ 300)

/-- Joi stepsSchema bound check: count between 0 and 100000. -/
def stepsSchemaOk (r : StepsEntry) : Bool :=
  decide (0 ≤ r.count ∧ r.count ≤ 100000)

/-- Joi sleepSchema bound check: duration between 0 and 24. -/
def sleepSchemaOk (r : SleepEntry) : Bool :=
  decide (0 ≤ r.duration ∧ r.duration ≤ 24)

/-- Joi trainingSchema bound check: duration between 0 and 480 (the
type and intensity enums are enforced by the Lean types). -/
def trainingSchemaOk (r : TrainingEntry) : Bool :=
  decide (0 ≤ r.duration ∧ r.duration ≤ 480)

/-- Joi moodSchema check: the value enum is enforced by the Lean type. -/
def moodSchemaOk (_ : MoodEntry) : Bool := true

/-- ReportParser.parseWeight: parseFloat after comma-to-dot, range guard
20..300, then Joi validation. -/
def parseWeight (s : String) : Option WeightEntry :=
  match jsParseFloat (replaceFirstComma s) with
  | .fin value =>
    if value < 20 ∨ 300 < value then none
    else
      let r : WeightEntry := { value := value, unit := .kg, source := .manual }
      if weightSchemaOk r then some r else none
  | _ => none

/-- ReportParser.parseSteps: parseInt, NaN guard, then Joi validation
with bounds 0..100000. -/
def parseSteps (s : String) : Option StepsEntry :=
  match jsParseInt s with
  | .fin n =>
    let r : StepsEntry := { count := n, source := .manual }
    if stepsSchemaOk r then some r else none
  | _ => none

/-- Does the string contain a colon (JS text.includes of a colon). -/
def containsColon (s : String) : Bool := s.toList.contains ':'

/-- Substring containment over character lists. -/
def hasSubList (pat : List Char) : List Char → Bool
  | [] => pat.isEmpty
  | c :: cs => isPrefixList pat (c :: cs) || hasSubList pat cs

/-- JS text.includes of the hours keyword used by parseSleep. -/
def containsHoursWord (s : String) : Bool :=
  hasSubList "годин".toList s.toList

/-- ReportParser.parseSleep: a colon form splits on the colon and takes
hours plus minutes over 60 via Number(); otherwise parseFloat (the
hours-keyword branch and the default branch of the source both call
parseFloat on the whole text); NaN guard, then Joi bounds 0..24, which
also reject the infinities. -/
def parseSleep (s : String) : Option SleepEntry :=
  let hours : JsNum :=
    if containsColon s then
      let parts := s.splitOn ":"
      let h := jsNumber (parts.getD 0 "")
      let m := jsNumber (parts.getD 1 "")
      h.add (m.divConst 60)
    else if containsHoursWord s then jsParseFloat s
    else jsParseFloat s
  match hours with
  | .fin q =>
    let r : SleepEntry := { duration := q, quality := .fair, source := .manual }
    if sleepSchemaOk r then some r else none
  | _ => none

/-- The trainingTypes lookup table of ReportParser (keys lower case). -/
def trainingTypeLookup (s : String) : Option TrainingType :=
  if s = "біг" then some .running
  else if s = "велосипед" then some .cycling
  else if s = "тренування" then some .gym
  else if s = "плавання" then some .swimming
  else if s = "ходьба" then some .walking
  else if s = "інше" then some .other
  else if s = "running" then some .running
  else if s = "cycling" then some .cycling
  else if s = "gym" then some .gym
  else if s = "swimming" then some .swimming
  else if s = "walking" then some .walking
  else if s = "other" then some .other
  else none

/-- ReportParser.parseTraining: lower-cased table lookup, fixed default
duration 30 and medium intensity, then Joi validation. -/
def parseTraining (s : String) : Option TrainingEntry :=
  match trainingTypeLookup (jsToLower s) with
  | none => none
  | some ty =>
    let r : TrainingEntry := { ttype := ty, duration := 30, intensity := .medium, source := .manual }
    if trainingSchemaOk r then some r else none

/-- The moodValues lookup table of ReportParser (keys lower case). -/
def moodValueLookup (s : String) : Option MoodValue :=
  if s = "чудово" then some .excellent
  else if s = "добре" then some .good
  else if s = "нормально" then some .neutral
  else if s = "погано" then some .bad
  else if s = "дуже погано" then some .terrible
  else if s = "excellent" then some .excellent
  else if s = "good" then some .good
  else if s = "neutral" then some .neutral
  else if s = "bad" then some .bad
  else if s = "terrible" then some .terrible
  else none

/-- ReportParser.parseMood: lower-cased table lookup, then Joi validation. -/
def parseMood (s : String) : Option MoodEntry :=
  match moodValueLookup (jsToLower s) with
  | none => none
  | some v =>
    let r : MoodEntry := { value := v }
    if moodSchemaOk r then some r else none

/-! ## DailyReport nutrition model (src/unnamed/part_001)

The meal-list schema, its aggregation method calculateTotalNutrition,
the addMeal/removeMeal methods and the pre-save hook.  Macro fields are
optional in the schema; the aggregation reads each with `|| 0`, modelled
by `Option.getD 0`. -/

/-- Meal type enum of mealSchema. -/
inductive MealType where
  | breakfast
  | lunch
  | dinner
  | snack
  | other
deriving DecidableEq

/-- A meal subdocument: its identity, type and optional macro fields. -/
structure Meal where
  mid : ℕ
  mtype : MealType
  calories : Option ℚ := none
  protein : Option ℚ := none
  carbs : Option ℚ := none
  fat : Option ℚ := none
  fiber : Option ℚ := none
  sugar : Option ℚ := none
  sodium : Option ℚ := none
deriving DecidableEq

/-- The totalNutrition subdocument (schema defaults are all 0). -/
structure NutritionTotals where
  calories : ℚ
  protein : ℚ
  carbs : ℚ
  fat : ℚ
  fiber : ℚ
  sugar : ℚ
  sodium : ℚ
deriving DecidableEq

/-- All-zero totals, the initial accumulator of calculateTotalNutrition. -/
def zeroTotals : NutritionTotals :=
  { calories := 0, protein := 0, carbs := 0, fat := 0, fiber := 0, sugar := 0, sodium := 0 }

/-- One accumulation step of the meals.forEach loop: each macro field is
read with a fallback of 0 for a missing value. -/
def accumMeal (t : NutritionTotals) (m : Meal) : NutritionTotals :=
  { calories := t.calories + m.calories.getD 0
    protein := t.protein + m.protein.getD 0
    carbs := t.carbs + m.carbs.getD 0
    fat := t.fat + m.fat.getD 0
    fiber := t.fiber + m.fiber.getD 0
    sugar := t.sugar + m.sugar.getD 0
    sodium := t.sodium + m.sodium.getD 0 }

/-- dailyReportSchema.methods.calculateTotalNutrition as a pure function
of the meal list: fold the accumulation step from all-zero totals. -/
def calculateTotalNutrition (meals : List Meal) : NutritionTotals :=
  meals.foldl accumMeal zeroTotals

/-- The DailyReport document of part_001, restricted to the fields the
meal operations touch. -/
structure NutriReport where
  userId : ℕ
  date : ℕ
  meals : List Meal
  totalNutrition : NutritionTotals
  updatedAt : ℕ
deriving DecidableEq

/-- The calculateTotalNutrition method on a report document: overwrite
the stored totalNutrition with the aggregate of the meal list. -/
def NutriReport.calcTotal (r : NutriReport) : NutriReport :=
  { r with totalNutrition := calculateTotalNutrition r.meals }

/-- The pre-save hook: refresh updatedAt and recompute totalNutrition. -/
def NutriReport.preSave (r : NutriReport) (now : ℕ) : NutriReport :=
  { r.calcTotal with updatedAt := now }

/-- dailyReportSchema.methods.addMeal: push, then recompute the totals. -/
def NutriReport.addMeal (r : NutriReport) (m : Meal) : NutriReport :=
  ({ r with meals := r.meals ++ [m] }).calcTotal

/-- dailyReportSchema.methods.removeMeal: filter out the meal whose id
matches, then recompute the totals. -/
def NutriReport.removeMeal (r : NutriReport) (mealId : ℕ) : NutriReport :=
  ({ r with meals := r.meals.filter (fun m => m.mid ≠ mealId) }).calcTotal

/-! ## Conversation state machine (src/src/services/telegram/bot.js and
src/src/models/User.js)

The per-user conversation state and scratch report, the per-step
handlers, and the dispatcher handleInputState.  A handler is a pure
function from the persisted user record and the raw text to the new
persisted user record and the reply that is sent; `now` stands for the
current time (new Date()) as a millisecond timestamp.  The external
FatSecret and OpenAI calls are at the model boundary: the FatSecret
continuations of the calories step are marked by dedicated reply
constructors, and the OpenAI analysis outcome is passed in as an
oracle argument to the terminal step. -/

/-- The inputState.state enum of the User schema. -/
inductive ConvState where
  | idle
  | waiting_for_input_method
  | waiting_for_weight
  | waiting_for_steps
  | waiting_for_sleep
  | waiting_for_calories
  | waiting_for_training
  | waiting_for_mood
  | waiting_for_comments
deriving DecidableEq

/-- Source tag of a calories entry in the scratch report. -/
inductive CalSource where
  | manual
  | fatsecret
deriving DecidableEq

/-- The calories part of the scratch nutrition object. -/
structure CaloriesEntry where
  value : ℚ
  source : CalSource
deriving DecidableEq

/-- The nutrition object merged into the scratch report at the calories
step; the manual path fills only calories, the FatSecret paths also the
macro fields and meals. -/
structure NutritionData where
  calories : CaloriesEntry
  protein : Option ℚ := none
  carbs : Option ℚ := none
  fat : Option ℚ := none
  fiber : Option ℚ := none
  sugar : Option ℚ := none
  sodium : Option ℚ := none
  meals : List Meal := []
deriving DecidableEq

/-- The inputState.currentReport scratch object: one optional slot per
field a step can contribute. -/
structure CurrentReport where
  weight : Option WeightEntry := none
  steps : Option ℚ := none
  sleep : Option SleepEntry := none
  nutrition : Option NutritionData := none
  training : Option TrainingEntry := none
  mood : Option MoodEntry := none
  comments : Option String := none
deriving DecidableEq

/-- A partial update merged into the scratch report by one step (the JS
object-spread merge overrides exactly the keys present in the patch). -/
structure ReportPatch where
  weight : Option WeightEntry := none
  steps : Option ℚ := none
  sleep : Option SleepEntry := none
  nutrition : Option NutritionData := none
  training : Option TrainingEntry := none
  mood : Option MoodEntry := none
  comments : Option String := none
deriving DecidableEq

/-- Key-wise override: a key present in the patch wins, an absent key
keeps the current value. -/
def override {α : Type} (p c : Option α) : Option α :=
  match p with
  | some v => some v
  | none => c

/-- The object-spread merge of updateInputState. -/
def mergeReport (cur : CurrentReport) (p : ReportPatch) : CurrentReport :=
  { weight := override p.weight cur.weight
    steps := override p.steps cur.steps
    sleep := override p.sleep cur.sleep
    nutrition := override p.nutrition cur.nutrition
    training := override p.training cur.training
    mood := override p.mood cur.mood
    comments := override p.comments cur.comments }

/-- The inputState subdocument of the User schema. -/
structure InputState where
  state : ConvState
  currentReport : CurrentReport
  lastMessageId : Option ℕ
  lastStepTimestamp : Option ℕ
deriving DecidableEq

/-- The persisted Telegram user record, restricted to the fields the
state machine touches. -/
structure TgUser where
  telegramId : ℕ
  inputState : InputState
deriving DecidableEq

/-- userSchema.methods.updateInputState: set the state, stamp the step
time, and merge the optional report patch into the scratch report. -/
def TgUser.updateInputState (u : TgUser) (st : ConvState) (d : Option ReportPatch) (now : ℕ) : TgUser :=
  { u with inputState :=
      { state := st
        currentReport :=
          match d with
          | none => u.inputState.currentReport
          | some p => mergeReport u.inputState.currentReport p
        lastMessageId := u.inputState.lastMessageId
        lastStepTimestamp := some now } }

/-- userSchema.methods.resetInputState: back to idle with an empty
scratch report. -/
def TgUser.resetInputState (u : TgUser) : TgUser :=
  { u with inputState :=
      { state := .idle, currentReport := {}, lastMessageId := none, lastStepTimestamp := none } }

/-- One constructor per outbound message site of the bot handlers. -/
inductive Reply where
  | askWeightFormat
  | askStepsFormat
  | askSleepFormat
  | askCaloriesFormat
  | askTrainingFormat
  | askMoodFormat
  | askCommentsFormat
  | weightInvalid
  | stepsInvalid
  | sleepInvalid
  | trainingInvalid
  | moodInvalid
  | promptSteps
  | promptSleep
  | promptCalories
  | caloriesAcceptedMenu
  | caloriesInvalidMenu
  | foodLookupStarted
  | importStarted
  | promptMood
  | promptComments
  | reportSaved
  | saveError
  | useCommands
deriving DecidableEq

/-- handleWeightInput: parseFloat after comma-to-dot; NaN, a value below
20, or a value above 300 re-prompts without touching the user (both
infinities fall in the out-of-range branch); a valid value stores the
weight and advances to the steps state. -/
def handleWeightInput (u : TgUser) (text : String) (now : ℕ) : TgUser × Reply :=
  match jsParseFloat (replaceFirstComma text) with
  | .fin value =>
    if value < 20 ∨ 300 < value then (u, .weightInvalid)
    else
      let w : WeightEntry := { value := value, unit := .kg, source := .manual }
      (u.updateInputState .waiting_for_steps (some { weight := some w }) now, .promptSteps)
  | _ => (u, .weightInvalid)

/-- handleStepsInput: parseInt; NaN or a negative value re-prompts
without touching the user; any other parsed integer (no upper bound in
this handler) stores the count and advances to the sleep state. -/
def handleStepsInput (u : TgUser) (text : String) (now : ℕ) : TgUser × Reply :=
  match jsParseInt text with
  | .fin steps =>
    if steps < 0 then (u, .stepsInvalid)
    else (u.updateInputState .waiting_for_sleep (some { steps := some steps }) now, .promptSleep)
  | _ => (u, .stepsInvalid)

/-- handleSleepInput: ReportParser.parseSleep; a null result re-prompts
without touching the user; otherwise the sleep entry is stored and the
state advances to the calories state. -/
def handleSleepInput (u : TgUser) (text : String) (now : ℕ) : TgUser × Reply :=
  match parseSleep text with
  | none => (u, .sleepInvalid)
  | some sl => (u.updateInputState .waiting_for_calories (some { sleep := some sl }) now, .promptCalories)

/-- handleCaloriesInput: the import button starts the external FatSecret
diary import; otherwise parseInt is tried first and a value in 1..10000
is stored as a manual calories entry, advancing to the training state;
any other input falls through to the external food-description lookup
when longer than 3 UTF-16 units, else to the invalid-input menu.  The
two external continuations are outside the model boundary and are
marked by their reply constructors. -/
def handleCaloriesInput (u : TgUser) (text : String) (now : ℕ) : TgUser × Reply :=
  if text = "📱 Імпорт з FatSecret" then (u, .importStarted)
  else
    let fallback : TgUser × Reply :=
      if 3 < utf16Len text then (u, .foodLookupStarted) else (u, .caloriesInvalidMenu)
    match jsParseInt text with
    | .fin n =>
      if 0 < n ∧ n ≤ 10000 then
        let nut : NutritionData := { calories := { value := n, source := .manual } }
        (u.updateInputState .waiting_for_training (some { nutrition := some nut }) now, .caloriesAcceptedMenu)
      else fallback
    | _ => fallback

/-- handleTrainingInput: the skip button advances to the mood state with
no field contributed; otherwise parseTraining, where null re-prompts and
a parsed entry is stored before advancing to the mood state. -/
def handleTrainingInput (u : TgUser) (text : String) (now : ℕ) : TgUser × Reply :=
  if text = "❌ Пропустити" then (u.updateInputState .waiting_for_mood none now, .promptMood)
  else
    match parseTraining text with
    | none => (u, .trainingInvalid)
    | some t => (u.updateInputState .waiting_for_mood (some { training := some t }) now, .promptMood)

/-- handleMoodInput: the skip button advances to the comments state with
no field contributed; otherwise parseMood, where null re-prompts and a
parsed entry is stored before advancing to the comments state. -/
def handleMoodInput (u : TgUser) (text : String) (now : ℕ) : TgUser × Reply :=
  if text = "❌ Пропустити" then (u.updateInputState .waiting_for_comments none now, .promptComments)
  else
    match parseMood text with
    | none => (u, .moodInvalid)
    | some m => (u.updateInputState .waiting_for_comments (some { mood := some m }) now, .promptComments)

/-! ## Report persistence at the terminal step

handleCommentsInput builds a DailyReport from the scratch report and
saves it with `date: new Date()`, a full millisecond timestamp.  The
store is the list of persisted report documents; the unique compound
index on (userId, date) makes an insert with an exact duplicate key
fail.  The OpenAI analysis is an oracle argument: `none` models the
external call throwing. -/

/-- The aiFeedback block returned by the OpenAI analyzer
(parseAnalysis in src/src/services/openai/analyzer.js). -/
structure Feedback where
  analysis : String
  recommendations : String
  goals : String
deriving DecidableEq

/-- One persisted DailyReport document of the bot data model
(src/src/models/DailyReport.js), restricted to the fields the terminal
step writes: the key, the spread scratch fields, and the AI feedback. -/
structure StoredReport where
  rid : ℕ
  userId : ℕ
  date : ℕ
  fields : CurrentReport
  aiFeedback : Option Feedback
deriving DecidableEq

/-- Does the store already hold a document with this exact
(userId, date) key (the unique compound index). -/
def hasUserDateKey (st : List StoredReport) (uid date : ℕ) : Bool :=
  st.any (fun r => r.userId == uid && r.date == date)

/-- Insert under the unique (userId, date) index: an exact duplicate
key makes the save fail. -/
def insertUnique (st : List StoredReport) (r : StoredReport) : Option (List StoredReport) :=
  if hasUserDateKey st r.userId r.date then none else some (st ++ [r])

/-- The second report.save() after the analysis: attach the feedback to
the already-persisted document. -/
def setFeedbackOn (st : List StoredReport) (rid : ℕ) (f : Feedback) : List StoredReport :=
  st.map (fun r => if r.rid = rid then { r with aiFeedback := some f } else r)

/-- The in-memory user after the comments line of handleCommentsInput:
any text other than the finish button is merged as the comments field
while the state moves to idle. -/
def commentsPatchedUser (u : TgUser) (text : String) (now : ℕ) : TgUser :=
  if text ≠ "✅ Завершити без коментарів" then
    u.updateInputState .idle (some { comments := some text }) now
  else u

/-- The DailyReport document built by handleCommentsInput: keyed by the
user and the full current timestamp, carrying the spread scratch
fields, with no feedback yet. -/
def finalReportOf (st : List StoredReport) (u : TgUser) (text : String) (now : ℕ) : StoredReport :=
  { rid := st.length
    userId := u.telegramId
    date := now
    fields := (commentsPatchedUser u text now).inputState.currentReport
    aiFeedback := none }

/-- handleCommentsInput: patch the comments, save the new report, then
run the OpenAI analysis; on analysis success attach the feedback, save
again, and reset the user's input state; a failing save or a throwing
analysis call lands in the catch block, which only sends an error
message — the in-memory user changes are never persisted there, and an
already-saved report stays saved. -/
def handleCommentsInput (st : List StoredReport) (u : TgUser) (text : String) (now : ℕ)
    (analysis : Option Feedback) : List StoredReport × TgUser × Reply :=
  let u1 := commentsPatchedUser u text now
  let rep := finalReportOf st u text now
  match insertUnique st rep with
  | none => (st, u, .saveError)
  | some st1 =>
    match analysis with
    | none => (st1, u, .saveError)
    | some f =>
      let st2 := setFeedbackOn st1 rep.rid f
      let u2 := u1.resetInputState
      (st2, u2, .reportSaved)

/-- Is the given text one of the three keyboard tokens that every
data-collecting case of handleInputState intercepts with a how-to
message before calling its step handler. -/
def isGuardToken (text : String) : Bool :=
  text = "✏️ Ввести вручну" || text = "📸 Надіслати скріншот" || text = "❌ Скасувати"

/-- The how-to message each data-collecting state sends for a guard
token (the per-state sendMessage in the guard branches). -/
def guardReply : ConvState → Reply
  | .waiting_for_weight => .askWeightFormat
  | .waiting_for_steps => .askStepsFormat
  | .waiting_for_sleep => .askSleepFormat
  | .waiting_for_calories => .askCaloriesFormat
  | .waiting_for_training => .askTrainingFormat
  | .waiting_for_mood => .askMoodFormat
  | .waiting_for_comments => .askCommentsFormat
  | _ => .useCommands

/-- Is the state one of the seven data-collecting steps. -/
def collectingState : ConvState → Bool
  | .waiting_for_weight => true
  | .waiting_for_steps => true
  | .waiting_for_sleep => true
  | .waiting_for_calories => true
  | .waiting_for_training => true
  | .waiting_for_mood => true
  | .waiting_for_comments => true
  | _ => false

/-- handleInputState: dispatch a text message on the user's current
conversation state.  Each data-collecting case first intercepts the
three keyboard tokens with its how-to message (leaving the user
untouched) and otherwise calls its step handler; the default case asks
the user to use commands.  (The source also has a
waiting-for-fatsecret-action case, a value outside the User schema's
state enum; it is not part of the report conversation and not
modelled.) -/
def handleInputState (st : List StoredReport) (u : TgUser) (text : String) (now : ℕ)
    (analysis : Option Feedback) : List StoredReport × TgUser × Reply :=
  match u.inputState.state with
  | .waiting_for_weight =>
    if isGuardToken text then (st, u, .askWeightFormat)
    else
      let p := handleWeightInput u text now
      (st, p.1, p.2)
  | .waiting_for_steps =>
    if isGuardToken text then (st, u, .askStepsFormat)
    else
      let p := handleStepsInput u text now
      (st, p.1, p.2)
  | .waiting_for_sleep =>
    if isGuardToken text then (st, u, .askSleepFormat)
    else
      let p := handleSleepInput u text now
      (st, p.1, p.2)
  | .waiting_for_calories =>
    if isGuardToken text then (st, u, .askCaloriesFormat)
    else
      let p := handleCaloriesInput u text now
      (st, p.1, p.2)
  | .waiting_for_training =>
    if isGuardToken text then (st, u, .askTrainingFormat)
    else
      let p := handleTrainingInput u text now
      (st, p.1, p.2)
  | .waiting_for_mood =>
    if isGuardToken text then (st, u, .askMoodFormat)
    else
      let p := handleMoodInput u text now
      (st, p.1, p.2)
  | .waiting_for_comments =>
    if isGuardToken text then (st, u, .askCommentsFormat)
    else handleCommentsInput st u text now analysis
  | _ => (st, u, .useCommands)

/-- Calendar day of a millisecond timestamp (UTC day index). -/
def dayOfTimestamp (t : ℕ) : ℕ := t / 86400000

/-- Demo feedback block used by concrete scenarios. -/
def fbDemo : Feedback := { analysis := "a", recommendations := "b", goals := "c" }

/-- A user at the terminal comments step with an empty scratch report. -/
def uComments : TgUser :=
  { telegramId := 7
    inputState :=
      { state := .waiting_for_comments, currentReport := {}
        lastMessageId := none, lastStepTimestamp := none } }

/-- Witness scenario user for the analysis-failure theorem. -/
def uComments2 : TgUser :=
  { telegramId := 9
    inputState :=
      { state := .waiting_for_comments, currentReport := { steps := some 8000 }
        lastMessageId := none, lastStepTimestamp := none } }

/-- A user mid-conversation at the weight step with a nonempty scratch
report. -/
def uCancel : TgUser :=
  { telegramId := 3
    inputState :=
      { state := .waiting_for_weight, currentReport := { steps := some 5000 }
        lastMessageId := none, lastStepTimestamp := none } }

/-- Witness scenario user for the amended cancel behavior. -/
def uCancel2 : TgUser :=
  { telegramId := 4
    inputState :=
      { state := .waiting_for_mood, currentReport := { steps := some 12 }
        lastMessageId := none, lastStepTimestamp := none } }

/-- Validated-or-null: the parse result is either absent or a value
passing the given schema check. -/
def OptionSat {α : Type} (o : Option α) (p : α → Bool) : Prop :=
  match o with
  | none => True
  | some a => p a = true

/-- A user at the steps step with an empty scratch report. -/
def uSteps : TgUser :=
  { telegramId := 11
    inputState :=
      { state := .waiting_for_steps, currentReport := {}
        lastMessageId := none, lastStepTimestamp := none } }

/-- Mathematical value of a decimal numeral with integer digits `ip`
and fractional digits `fp`. -/
def decimalVal (ip fp : List Char) : ℚ :=
  (natOfDigits ip : ℚ) + (natOfDigits fp : ℚ) / (10 : ℚ) ^ fp.length

/-- The string is a decimal numeral with value q: a nonempty integer
digit block, optionally followed by a dot or comma separator and a
fractional digit block. -/
def IsDecimalNumeral (s : String) (q : ℚ) : Prop :=
  ∃ ip fp sep, (sep = '.' ∨ sep = ',') ∧ ip ≠ [] ∧ ip.all isDigitChar = true ∧
    fp.all isDigitChar = true ∧
    (s.toList = ip ++ sep :: fp ∨ (s.toList = ip ∧ fp = [])) ∧
    q = decimalVal ip fp

/-- A user at the weight step. -/
def uWeight : TgUser :=
  { telegramId := 21
    inputState :=
      { state := .waiting_for_weight, currentReport := {}
        lastMessageId := none, lastStepTimestamp := none } }

/-- The string is a plain unsigned integer numeral of value n. -/
def IsPlainIntString (s : String) (n : ℕ) : Prop :=
  s.toList ≠ [] ∧ s.toList.all isDigitChar = true ∧ n = natOfDigits s.toList

/-- A user at the calories step. -/
def uCalories : TgUser :=
  { telegramId := 31
    inputState :=
      { state := .waiting_for_calories, currentReport := {}
        lastMessageId := none, lastStepTimestamp := none } }

/-! ## Theorems -/

/-- Folding the accumulation step from any starting totals adds the
field-wise sums of the meal list. -/
lemma foldl_accumMeal (ms : List Meal) (t : NutritionTotals) :
    ms.foldl accumMeal t =
      { calories := t.calories + (ms.map fun m => m.calories.getD 0).sum
        protein := t.protein + (ms.map fun m => m.protein.getD 0).sum
        carbs := t.carbs + (ms.map fun m => m.carbs.getD 0).sum
        fat := t.fat + (ms.map fun m => m.fat.getD 0).sum
        fiber := t.fiber + (ms.map fun m => m.fiber.getD 0).sum
        sugar := t.sugar + (ms.map fun m => m.sugar.getD 0).sum
        sodium := t.sodium + (ms.map fun m => m.sodium.getD 0).sum } := by
  induction ms generalizing t with
  | nil => simp
  | cons m ms ih => simp [List.foldl_cons, ih, accumMeal, add_assoc]

/-- C1: for every finite meal list, calculateTotalNutrition computes
each macro total as the sum of that field over all meals, reading a
missing field as zero, and the empty list yields the all-zero totals. -/
theorem calculateTotalNutrition_fieldwise_sum (ms : List Meal) :
    (calculateTotalNutrition ms).calories = (ms.map fun m => m.calories.getD 0).sum ∧
    (calculateTotalNutrition ms).protein = (ms.map fun m => m.protein.getD 0).sum ∧
    (calculateTotalNutrition ms).carbs = (ms.map fun m => m.carbs.getD 0).sum ∧
    (calculateTotalNutrition ms).fat = (ms.map fun m => m.fat.getD 0).sum ∧
    (calculateTotalNutrition ms).fiber = (ms.map fun m => m.fiber.getD 0).sum ∧
    (calculateTotalNutrition ms).sugar = (ms.map fun m => m.sugar.getD 0).sum ∧
    (calculateTotalNutrition ms).sodium = (ms.map fun m => m.sodium.getD 0).sum ∧
    calculateTotalNutrition [] = zeroTotals := by
  have h := foldl_accumMeal ms zeroTotals
  simp only [zeroTotals, zero_add] at h
  simp [calculateTotalNutrition, h, zeroTotals]

/-- C2: every structural change to the meal list — addMeal, removeMeal,
and the pre-save hook — recomputes totalNutrition, so afterwards the
stored total equals the aggregation of the meal list. -/
theorem meal_mutations_preserve_aggregation (r : NutriReport) (m : Meal) (mealId now : ℕ) :
    (r.addMeal m).totalNutrition = calculateTotalNutrition (r.addMeal m).meals ∧
    (r.removeMeal mealId).totalNutrition = calculateTotalNutrition (r.removeMeal mealId).meals ∧
    (r.preSave now).totalNutrition = calculateTotalNutrition (r.preSave now).meals :=
  ⟨rfl, rfl, rfl⟩

/-- C3: the code stores `date: new Date()`, a full millisecond
timestamp, so two completed conversations on the same calendar day get
distinct keys under the unique (userId, date) index and the second
submission inserts a second document instead of updating the first:
after two terminal steps at timestamps 100 and 200 of the same day,
the store holds two reports for this user and day, contradicting the
one-report-per-user-per-day intent stated at the index definition. -/
theorem same_day_submissions_duplicate :
    dayOfTimestamp 100 = dayOfTimestamp 200 ∧
    ((handleCommentsInput
        (handleCommentsInput [] uComments "done" 100 (some fbDemo)).1
        uComments "done again" 200 (some fbDemo)).1.filter
      (fun r => r.userId == uComments.telegramId &&
        dayOfTimestamp r.date == dayOfTimestamp 100)).length = 2 := by
  decide

/-- C9: once the report insert has succeeded at the terminal step, a
throwing OpenAI analysis call lands in the catch block, which only
sends an error message: the store keeps exactly the state that the
save produced (the report is neither rolled back nor modified), the
persisted report's feedback block is absent, and the persisted user
record is the pre-turn one (the in-memory changes were never saved). -/
theorem analysis_failure_keeps_saved_report (st : List StoredReport) (u : TgUser)
    (text : String) (now : ℕ) (h : hasUserDateKey st u.telegramId now = false) :
    handleCommentsInput st u text now none =
      (st ++ [finalReportOf st u text now], u, .saveError) ∧
    (finalReportOf st u text now).aiFeedback = none := by
  refine ⟨?_, rfl⟩
  have hk : hasUserDateKey st (finalReportOf st u text now).userId
      (finalReportOf st u text now).date = false := h
  simp [handleCommentsInput, insertUnique, hk]

/-- C9 witness: concrete terminal step on an empty store with a failing
analysis call. -/
theorem analysis_failure_keeps_saved_report_witness :
    hasUserDateKey [] uComments2.telegramId 5 = false ∧
    (handleCommentsInput [] uComments2 "hello" 5 none =
      ([finalReportOf [] uComments2 "hello" 5], uComments2, .saveError) ∧
    (finalReportOf [] uComments2 "hello" 5).aiFeedback = none) :=
  ⟨by decide, analysis_failure_keeps_saved_report [] uComments2 "hello" 5 (by decide)⟩

/-- C4 counterexample: at the weight step, the explicit cancel token
does not reset the conversation: the handler re-emits the step's how-to
message and returns the user record completely unchanged, still at the
weight state with its nonempty scratch report — it neither sets the
state to idle nor clears the scratch report. -/
theorem cancel_token_does_not_reset :
    handleInputState [] uCancel "❌ Скасувати" 0 none = ([], uCancel, .askWeightFormat) ∧
    uCancel.inputState.state = .waiting_for_weight ∧
    uCancel.inputState.currentReport ≠ ({} : CurrentReport) := by
  decide

/-- C4 amended: in every data-collecting state, the cancel token is
intercepted by the guard, which re-emits that state's how-to message
and leaves the user record (state and scratch report) unchanged; it
does not return to idle and does not clear the scratch report. -/
theorem cancel_token_reprompts_unchanged (st : List StoredReport) (u : TgUser) (now : ℕ)
    (a : Option Feedback) (h : collectingState u.inputState.state = true) :
    handleInputState st u "❌ Скасувати" now a = (st, u, guardReply u.inputState.state) := by
  have hg : isGuardToken "❌ Скасувати" = true := by decide
  cases hs : u.inputState.state <;>
    simp [handleInputState, guardReply, hs, hg, collectingState] at h ⊢

/-- C4 amended witness: concrete cancel token at the mood step. -/
theorem cancel_token_reprompts_unchanged_witness :
    collectingState uCancel2.inputState.state = true ∧
    handleInputState [] uCancel2 "❌ Скасувати" 9 none =
      ([], uCancel2, guardReply uCancel2.inputState.state) :=
  ⟨by decide, cancel_token_reprompts_unchanged [] uCancel2 9 none (by decide)⟩

/-- C5: on a parse failure each data-collecting step handler leaves the
user record (conversation state and scratch report) unchanged and
re-emits its corrective prompt; a handler advances only with a
validated parsed value or (at the training and mood steps) the explicit
skip token, and the calories step additionally hands off to its two
external FatSecret continuations with the user record untouched.  The
terminal comments step has no parser — any text is accepted as the
comment — so the parse-failure property is vacuous there.  In
particular the non-numeric input abc at the weight step changes
nothing. -/
theorem parse_failure_leaves_state_unchanged (u : TgUser) (s : String) (now : ℕ) :
    ((∃ q : ℚ, jsParseFloat (replaceFirstComma s) = .fin q ∧ 20 ≤ q ∧ q ≤ 300 ∧
        handleWeightInput u s now =
          (u.updateInputState .waiting_for_steps
            (some { weight := some { value := q, unit := .kg, source := .manual } }) now,
           .promptSteps)) ∨
      handleWeightInput u s now = (u, .weightInvalid)) ∧
    ((∃ d, parseSleep s = some d ∧
        handleSleepInput u s now =
          (u.updateInputState .waiting_for_calories (some { sleep := some d }) now,
           .promptCalories)) ∨
      handleSleepInput u s now = (u, .sleepInvalid)) ∧
    handleWeightInput u "abc" now = (u, .weightInvalid) ∧
    ((∃ n : ℚ, jsParseInt s = .fin n ∧ 0 ≤ n ∧
        handleStepsInput u s now =
          (u.updateInputState .waiting_for_sleep (some { steps := some n }) now,
           .promptSleep)) ∨
      handleStepsInput u s now = (u, .stepsInvalid)) ∧
    ((∃ n : ℚ, jsParseInt s = .fin n ∧ 0 < n ∧ n ≤ 10000 ∧
        handleCaloriesInput u s now =
          (u.updateInputState .waiting_for_training
            (some { nutrition := some { calories := { value := n, source := .manual } } }) now,
           .caloriesAcceptedMenu)) ∨
      handleCaloriesInput u s now = (u, .importStarted) ∨
      handleCaloriesInput u s now = (u, .foodLookupStarted) ∨
      handleCaloriesInput u s now = (u, .caloriesInvalidMenu)) ∧
    ((s = "❌ Пропустити" ∧
        handleTrainingInput u s now =
          (u.updateInputState .waiting_for_mood none now, .promptMood)) ∨
      (∃ t, parseTraining s = some t ∧
        handleTrainingInput u s now =
          (u.updateInputState .waiting_for_mood (some { training := some t }) now,
           .promptMood)) ∨
      handleTrainingInput u s now = (u, .trainingInvalid)) ∧
    ((s = "❌ Пропустити" ∧
        handleMoodInput u s now =
          (u.updateInputState .waiting_for_comments none now, .promptComments)) ∨
      (∃ m, parseMood s = some m ∧
        handleMoodInput u s now =
          (u.updateInputState .waiting_for_comments (some { mood := some m }) now,
           .promptComments)) ∨
      handleMoodInput u s now = (u, .moodInvalid)) := by
  refine ⟨?_, ?_, ?_, ?_, ?_, ?_, ?_⟩
  · cases hp : jsParseFloat (replaceFirstComma s) with
    | nan => right; simp [handleWeightInput, hp]
    | posInf => right; simp [handleWeightInput, hp]
    | negInf => right; simp [handleWeightInput, hp]
    | fin q =>
      by_cases hq : q < 20 ∨ 300 < q
      · right
        simp [handleWeightInput, hp, hq]
      · left
        have hq2 : 20 ≤ q ∧ q ≤ 300 := by
          push_neg at hq
          exact ⟨hq.1, hq.2⟩
        exact ⟨q, rfl, hq2.1, hq2.2, by simp [handleWeightInput, hp, hq]⟩
  · cases hp : parseSleep s with
    | none => right; simp [handleSleepInput, hp]
    | some d => left; exact ⟨d, rfl, by simp [handleSleepInput, hp]⟩
  · have hn : jsParseFloat (replaceFirstComma "abc") = .nan := by decide
    simp [handleWeightInput, hn]
  · cases hp : jsParseInt s with
    | nan => right; simp [handleStepsInput, hp]
    | posInf => right; simp [handleStepsInput, hp]
    | negInf => right; simp [handleStepsInput, hp]
    | fin n =>
      by_cases hn : n < 0
      · right
        simp [handleStepsInput, hp, hn]
      · left
        exact ⟨n, rfl, not_lt.mp hn, by simp [handleStepsInput, hp, hn]⟩
  · by_cases hb : s = "📱 Імпорт з FatSecret"
    · right; left
      simp [handleCaloriesInput, hb]
    · cases hp : jsParseInt s with
      | nan =>
        by_cases hl : 3 < utf16Len s
        · right; right; left
          simp [handleCaloriesInput, hb, hp, hl]
        · right; right; right
          simp [handleCaloriesInput, hb, hp, hl]
      | posInf =>
        by_cases hl : 3 < utf16Len s
        · right; right; left
          simp [handleCaloriesInput, hb, hp, hl]
        · right; right; right
          simp [handleCaloriesInput, hb, hp, hl]
      | negInf =>
        by_cases hl : 3 < utf16Len s
        · right; right; left
          simp [handleCaloriesInput, hb, hp, hl]
        · right; right; right
          simp [handleCaloriesInput, hb, hp, hl]
      | fin n =>
        by_cases hc : 0 < n ∧ n ≤ 10000
        · left
          exact ⟨n, rfl, hc.1, hc.2, by simp [handleCaloriesInput, hb, hp, hc]⟩
        · by_cases hl : 3 < utf16Len s
          · right; right; left
            simp [handleCaloriesInput, hb, hp, hc, hl]
          · right; right; right
            simp [handleCaloriesInput, hb, hp, hc, hl]
  · by_cases hskip : s = "❌ Пропустити"
    · left
      exact ⟨hskip, by simp [handleTrainingInput, hskip]⟩
    · cases hp : parseTraining s with
      | none => right; right; simp [handleTrainingInput, hskip, hp]
      | some t =>
        right; left
        exact ⟨t, rfl, by simp [handleTrainingInput, hskip, hp]⟩
  · by_cases hskip : s = "❌ Пропустити"
    · left
      exact ⟨hskip, by simp [handleMoodInput, hskip]⟩
    · cases hp : parseMood s with
      | none => right; right; simp [handleMoodInput, hskip, hp]
      | some m =>
        right; left
        exact ⟨m, rfl, by simp [handleMoodInput, hskip, hp]⟩

/-- A guarded result satisfies validated-or-null by construction. -/
lemma optionSat_guard {α : Type} (p : α → Bool) (r : α) :
    OptionSat (if p r then some r else none) p := by
  by_cases h : p r = true
  · simp [h, OptionSat]
  · simp [h, OptionSat]

/-- C8: each field parser is total and returns either null or a value
that passes its Joi schema validation (weight in 20..300 kg, steps in
0..100000, sleep duration in 0..24 hours, training duration in 0..480
with an enum type, mood an enum value); totality and the absence of
exceptions on malformed input are inherent to the Option-returning
embedding of the try/catch-wrapped source. -/
theorem parsers_validated_or_null (s : String) :
    OptionSat (parseWeight s) weightSchemaOk ∧
    OptionSat (parseSteps s) stepsSchemaOk ∧
    OptionSat (parseSleep s) sleepSchemaOk ∧
    OptionSat (parseTraining s) trainingSchemaOk ∧
    OptionSat (parseMood s) moodSchemaOk := by
  refine ⟨?_, ?_, ?_, ?_, ?_⟩
  · unfold parseWeight
    cases jsParseFloat (replaceFirstComma s) with
    | fin q =>
      dsimp only
      split
      · trivial
      · exact optionSat_guard _ _
    | nan => trivial
    | posInf => trivial
    | negInf => trivial
  · unfold parseSteps
    cases jsParseInt s with
    | fin n => exact optionSat_guard _ _
    | nan => trivial
    | posInf => trivial
    | negInf => trivial
  · unfold parseSleep
    dsimp only
    split
    · exact optionSat_guard _ _
    · trivial
  · unfold parseTraining
    cases trainingTypeLookup (jsToLower s) with
    | none => trivial
    | some ty => exact optionSat_guard _ _
  · unfold parseMood
    cases moodValueLookup (jsToLower s) with
    | none => trivial
    | some v => exact optionSat_guard _ _

/-- C7 counterexample: the bot's steps handler has no upper bound — the
input 200000 is accepted and stored, advancing the state to sleep, even
though 200000 exceeds 100000 and the standalone ReportParser.parseSteps
would reject it. -/
theorem steps_step_accepts_200000 :
    handleStepsInput uSteps "200000" 0 =
      (uSteps.updateInputState .waiting_for_sleep (some { steps := some 200000 }) 0,
       .promptSleep) ∧
    (100000 : ℚ) < 200000 ∧
    parseSteps "200000" = none := by
  decide

/-- C7 amended: at the steps step the bot accepts any parsed integer
that is not negative, with no upper bound, re-prompting on NaN or a
negative value; the 0..100000 bound lives only in
ReportParser.parseSteps, which returns null for non-numeric input and
for any count above 100000. -/
theorem steps_acceptance_and_parser_bound (u : TgUser) (s : String) (now : ℕ) :
    (∀ n : ℚ, jsParseInt s = .fin n →
      ((0 ≤ n → handleStepsInput u s now =
          (u.updateInputState .waiting_for_sleep (some { steps := some n }) now,
           .promptSleep)) ∧
       (n < 0 → handleStepsInput u s now = (u, .stepsInvalid)) ∧
       (100000 < n → parseSteps s = none))) ∧
    (jsParseInt s = .nan →
      handleStepsInput u s now = (u, .stepsInvalid) ∧ parseSteps s = none) := by
  constructor
  · intro n hp
    refine ⟨?_, ?_, ?_⟩
    · intro h0
      simp [handleStepsInput, hp, not_lt.mpr h0]
    · intro hneg
      simp [handleStepsInput, hp, hneg]
    · intro hgt
      have hno : ¬(0 ≤ n ∧ n ≤ 100000) := fun hc => absurd hgt (not_lt.mpr hc.2)
      simp [parseSteps, hp, stepsSchemaOk, hno]
  · intro hp
    exact ⟨by simp [handleStepsInput, hp], by simp [parseSteps, hp]⟩

/-- C7 amended witness: the concrete input 200000 is parsed, is not
negative, is accepted by the bot handler, and is rejected by
ReportParser.parseSteps. -/
theorem steps_acceptance_witness :
    jsParseInt "200000" = .fin 200000 ∧ (0 : ℚ) ≤ 200000 ∧ (100000 : ℚ) < 200000 ∧
    handleStepsInput uSteps "200000" 3 =
      (uSteps.updateInputState .waiting_for_sleep (some { steps := some 200000 }) 3,
       .promptSleep) ∧
    parseSteps "200000" = none :=
  ⟨by decide, by norm_num, by norm_num,
   ((steps_acceptance_and_parser_bound uSteps "200000" 3).1 200000 (by decide)).1 (by norm_num),
   ((steps_acceptance_and_parser_bound uSteps "200000" 3).1 200000 (by decide)).2.2 (by norm_num)⟩

/-- Characters with distinct code points are distinct. -/
lemma char_ne_of_toNat {c d : Char} (h : c.toNat ≠ d.toNat) : c ≠ d :=
  fun he => h (by rw [he])

/-- Code-point bounds of a decimal digit. -/
lemma digit_bounds {c : Char} (h : isDigitChar c = true) :
    48 ≤ c.toNat ∧ c.toNat ≤ 57 := by
  simpa [isDigitChar] using h

/-- A digit is not JS whitespace. -/
lemma not_ws_of_digit {c : Char} (h : isDigitChar c = true) :
    isJsWhitespace c = false := by
  obtain ⟨h1, h2⟩ := digit_bounds h
  have hs : c ≠ ' ' := char_ne_of_toNat (by have : (' ').toNat = 32 := rfl; omega)
  have ht : c ≠ '\t' := char_ne_of_toNat (by have : ('\t').toNat = 9 := rfl; omega)
  have hn : c ≠ '\n' := char_ne_of_toNat (by have : ('\n').toNat = 10 := rfl; omega)
  have hr : c ≠ '\r' := char_ne_of_toNat (by have : ('\r').toNat = 13 := rfl; omega)
  simp [isJsWhitespace, hs, ht, hn, hr]
  omega

/-- dropWs leaves a digit-headed list unchanged. -/
lemma dropWs_cons_digit {c : Char} {r : List Char} (h : isDigitChar c = true) :
    dropWs (c :: r) = c :: r := by
  simp [dropWs, not_ws_of_digit h]

/-- splitSign consumes nothing from a digit-headed list. -/
lemma splitSign_digit {c : Char} {r : List Char} (h : isDigitChar c = true) :
    splitSign (c :: r) = (false, c :: r) := by
  obtain ⟨h1, h2⟩ := digit_bounds h
  have hp : c ≠ '+' := char_ne_of_toNat (by have : ('+').toNat = 43 := rfl; omega)
  have hm : c ≠ '-' := char_ne_of_toNat (by have : ('-').toNat = 45 := rfl; omega)
  simp [splitSign, hp, hm]

/-- A digit-headed list does not start with the Infinity token. -/
lemma startsWithInfinity_digit {c : Char} {r : List Char} (h : isDigitChar c = true) :
    startsWithInfinityTok (c :: r) = false := by
  obtain ⟨h1, h2⟩ := digit_bounds h
  have hne : 'I' ≠ c := fun he => by
    rw [← he] at h2
    have : ('I').toNat = 73 := rfl
    omega
  simp [startsWithInfinityTok, isPrefixList, hne]

/-- takeDigits consumes an all-digit list entirely. -/
lemma takeDigits_all {ds : List Char} (h : ds.all isDigitChar = true) :
    takeDigits ds = (ds, []) := by
  induction ds with
  | nil => rfl
  | cons c cs ih =>
    simp only [List.all_cons, Bool.and_eq_true] at h
    simp [takeDigits, h.1, ih h.2]

/-- takeDigits stops exactly at the first non-digit after an all-digit
block. -/
lemma takeDigits_append {ds : List Char} (c : Char) (r : List Char)
    (h : ds.all isDigitChar = true) (hc : isDigitChar c = false) :
    takeDigits (ds ++ c :: r) = (ds, c :: r) := by
  induction ds with
  | nil => simp [takeDigits, hc]
  | cons d dt ih =>
    simp only [List.all_cons, Bool.and_eq_true] at h
    simp [takeDigits, h.1, ih h.2]

/-- A digit is not a comma. -/
lemma digit_ne_comma {c : Char} (h : isDigitChar c = true) : c ≠ ',' := by
  obtain ⟨h1, h2⟩ := digit_bounds h
  exact char_ne_of_toNat (by have : (',').toNat = 44 := rfl; omega)

/-- Replacing the first comma leaves a comma-free list unchanged. -/
lemma replaceFirstCommaList_no_comma {l : List Char} (h : ∀ c ∈ l, c ≠ ',') :
    replaceFirstCommaList l = l := by
  induction l with
  | nil => rfl
  | cons c cs ih =>
    have hc : c ≠ ',' := h c (List.mem_cons_self c cs)
    simp [replaceFirstCommaList, hc, ih fun d hd => h d (List.mem_cons_of_mem _ hd)]

/-- Replacing the first comma in digits-comma-digits yields the dotted
form. -/
lemma replaceFirstCommaList_digits_comma {ip : List Char} (fp : List Char)
    (h : ip.all isDigitChar = true) :
    replaceFirstCommaList (ip ++ ',' :: fp) = ip ++ '.' :: fp := by
  induction ip with
  | nil => simp [replaceFirstCommaList]
  | cons c cs ih =>
    simp only [List.all_cons, Bool.and_eq_true] at h
    simp [replaceFirstCommaList, digit_ne_comma h.1, ih h.2]

/-- jsParseFloat on an explicit digits-dot-digits numeral returns its
exact value. -/
lemma jsParseFloat_digits_dot (ip fp : List Char) (h0 : ip ≠ [])
    (h1 : ip.all isDigitChar = true) (h2 : fp.all isDigitChar = true) :
    jsParseFloat (String.mk (ip ++ '.' :: fp)) = .fin (decimalVal ip fp) := by
  obtain ⟨c, ip', rfl⟩ : ∃ c ip', ip = c :: ip' := by
    cases ip with
    | nil => exact absurd rfl h0
    | cons c ip' => exact ⟨c, ip', rfl⟩
  have hc : isDigitChar c = true := by
    simp only [List.all_cons, Bool.and_eq_true] at h1
    exact h1.1
  have hdot : isDigitChar '.' = false := by decide
  have hmant : takeDigits (c :: (ip' ++ '.' :: fp)) = (c :: ip', '.' :: fp) := by
    simpa using takeDigits_append '.' fp h1 hdot
  have hfp : takeDigits fp = (fp, []) := takeDigits_all h2
  simp [jsParseFloat, String.toList, dropWs_cons_digit hc, splitSign_digit hc,
    startsWithInfinity_digit hc, parseMantissa, hmant, hfp, parseExpPart,
    applySign, decimalVal]

/-- jsParseFloat on an all-digit numeral returns its exact value. -/
lemma jsParseFloat_digits_only (ip : List Char) (h0 : ip ≠ [])
    (h1 : ip.all isDigitChar = true) :
    jsParseFloat (String.mk ip) = .fin (decimalVal ip []) := by
  obtain ⟨c, ip', rfl⟩ : ∃ c ip', ip = c :: ip' := by
    cases ip with
    | nil => exact absurd rfl h0
    | cons c ip' => exact ⟨c, ip', rfl⟩
  have hc : isDigitChar c = true := by
    simp only [List.all_cons, Bool.and_eq_true] at h1
    exact h1.1
  have hmant : takeDigits (c :: ip') = (c :: ip', []) := takeDigits_all h1
  simp [jsParseFloat, String.toList, dropWs_cons_digit hc, splitSign_digit hc,
    startsWithInfinity_digit hc, parseMantissa, hmant, parseExpPart,
    applySign, decimalVal, natOfDigits]

/-- The weight-step numeric conversion returns the exact value of a
decimal numeral with dot or comma separator. -/
lemma decimal_parseFloat {s : String} {q : ℚ} (h : IsDecimalNumeral s q) :
    jsParseFloat (replaceFirstComma s) = .fin q := by
  obtain ⟨ip, fp, sep, hsep, h0, h1, h2, hform, rfl⟩ := h
  have hipc : ∀ c ∈ ip, c ≠ ',' := fun c hc =>
    digit_ne_comma (by
      rw [List.all_eq_true] at h1
      exact h1 c hc)
  have hfpc : ∀ c ∈ fp, c ≠ ',' := fun c hc =>
    digit_ne_comma (by
      rw [List.all_eq_true] at h2
      exact h2 c hc)
  rcases hform with hlist | ⟨hlist, rfl⟩
  · rcases hsep with rfl | rfl
    · have hnc : ∀ c ∈ ip ++ '.' :: fp, c ≠ ',' := by
        intro c hc
        rcases List.mem_append.mp hc with hm | hm
        · exact hipc c hm
        · rcases List.mem_cons.mp hm with rfl | hm
          · decide
          · exact hfpc c hm
      rw [replaceFirstComma, hlist, replaceFirstCommaList_no_comma hnc]
      exact jsParseFloat_digits_dot ip fp h0 h1 h2
    · rw [replaceFirstComma, hlist, replaceFirstCommaList_digits_comma fp h1]
      exact jsParseFloat_digits_dot ip fp h0 h1 h2
  · rw [replaceFirstComma, hlist, replaceFirstCommaList_no_comma hipc]
    exact jsParseFloat_digits_only ip h0 h1

/-- C6: at the weight step, a decimal-numeral input (dot or comma
separator) whose value is within 20..300 is stored as exactly that
value in kilograms and the conversation advances to the steps state; a
value below 20 or above 300 is rejected with the user record unchanged,
and so is non-numeric text (= input whose numeric conversion is NaN). -/
theorem weight_step_decimal_behavior (u : TgUser) (now : ℕ) (s : String) (q : ℚ)
    (h : IsDecimalNumeral s q) :
    ((20 ≤ q ∧ q ≤ 300) →
      handleWeightInput u s now =
        (u.updateInputState .waiting_for_steps
          (some { weight := some { value := q, unit := .kg, source := .manual } }) now,
         .promptSteps)) ∧
    ((q < 20 ∨ 300 < q) → handleWeightInput u s now = (u, .weightInvalid)) ∧
    jsParseFloat (replaceFirstComma s) = .fin q ∧
    (∀ t : String, jsParseFloat (replaceFirstComma t) = .nan →
      handleWeightInput u t now = (u, .weightInvalid)) := by
  have hp := decimal_parseFloat h
  refine ⟨?_, ?_, hp, ?_⟩
  · intro hq
    have hno : ¬(q < 20 ∨ 300 < q) := by
      push_neg
      exact ⟨hq.1, hq.2⟩
    simp [handleWeightInput, hp, hno]
  · intro hq
    simp [handleWeightInput, hp, hq]
  · intro t ht
    simp [handleWeightInput, ht]

/-- C6 witness: the concrete input 75.5 is a decimal numeral of value
151/2, lies in range, is stored exactly and advances the state. -/
theorem weight_step_decimal_witness :
    IsDecimalNumeral "75.5" (151 / 2 : ℚ) ∧
    handleWeightInput uWeight "75.5" 1 =
      (uWeight.updateInputState .waiting_for_steps
        (some { weight := some { value := (151 / 2 : ℚ), unit := .kg, source := .manual } }) 1,
       .promptSteps) :=
  have hd : IsDecimalNumeral "75.5" (151 / 2 : ℚ) :=
    ⟨['7', '5'], ['5'], '.', Or.inl rfl, by decide, by decide, by decide,
      Or.inl (by decide), by
        show (151 / 2 : ℚ) = decimalVal ['7', '5'] ['5']
        have e1 : natOfDigits ['7', '5'] = 75 := by decide
        have e2 : natOfDigits ['5'] = 5 := by decide
        rw [decimalVal, e1, e2]
        norm_num⟩
  ⟨hd, (weight_step_decimal_behavior uWeight 1 "75.5" (151 / 2 : ℚ) hd).1 (by norm_num)⟩

/-- jsParseInt on a plain digit string returns its exact value. -/
lemma plainInt_parseInt {s : String} {n : ℕ} (h : IsPlainIntString s n) :
    jsParseInt s = .fin (n : ℚ) := by
  obtain ⟨h0, h1, rfl⟩ := h
  cases hl : s.toList with
  | nil => exact absurd hl h0
  | cons c cs =>
    rw [hl] at h1
    have hc : isDigitChar c = true := by
      simp only [List.all_cons, Bool.and_eq_true] at h1
      exact h1.1
    have htd : takeDigits (c :: cs) = (c :: cs, []) := takeDigits_all h1
    have hl2 : s.data = c :: cs := hl
    cases cs with
    | nil =>
      simp [jsParseInt, hl, hl2, dropWs_cons_digit hc, splitSign_digit hc, htd, applySign]
    | cons b bs =>
      have hb : isDigitChar b = true := by
        simp only [List.all_cons, Bool.and_eq_true] at h1
        exact h1.2.1
      obtain ⟨hb1, hb2⟩ := digit_bounds hb
      have hbx : b ≠ 'x' := char_ne_of_toNat (by have : ('x').toNat = 120 := rfl; omega)
      have hbX : b ≠ 'X' := char_ne_of_toNat (by have : ('X').toNat = 88 := rfl; omega)
      simp [jsParseInt, hl, hl2, dropWs_cons_digit hc, splitSign_digit hc, htd, applySign,
        hbx, hbX]

/-- A plain digit string is not the FatSecret import button. -/
lemma plainInt_ne_importButton {s : String} {n : ℕ} (h : IsPlainIntString s n) :
    s ≠ "📱 Імпорт з FatSecret" := by
  intro he
  rw [he] at h
  exact absurd h.2.1 (by decide)

/-- C10: at the calories step, a plain integer input n is stored as a
manual calories entry and the state advances to training exactly when
1 ≤ n ≤ 10000; a plain integer outside that range leaves the user
record unchanged and falls through to the food-description lookup or
the corrective menu. -/
theorem calories_manual_accept_iff_in_range (u : TgUser) (now : ℕ) (s : String) (n : ℕ)
    (h : IsPlainIntString s n) :
    ((1 ≤ n ∧ n ≤ 10000) →
      handleCaloriesInput u s now =
        (u.updateInputState .waiting_for_training
          (some { nutrition := some { calories := { value := (n : ℚ), source := .manual } } }) now,
         .caloriesAcceptedMenu)) ∧
    (¬(1 ≤ n ∧ n ≤ 10000) →
      (handleCaloriesInput u s now).1 = u ∧
      ((handleCaloriesInput u s now).2 = .foodLookupStarted ∨
       (handleCaloriesInput u s now).2 = .caloriesInvalidMenu)) := by
  have hp := plainInt_parseInt h
  have hbtn : s ≠ "📱 Імпорт з FatSecret" := plainInt_ne_importButton h
  constructor
  · intro hrange
    have hcond : 0 < (n : ℚ) ∧ (n : ℚ) ≤ 10000 := by
      constructor
      · exact_mod_cast Nat.lt_of_lt_of_le Nat.zero_lt_one hrange.1
      · exact_mod_cast hrange.2
    simp [handleCaloriesInput, hbtn, hp, hcond]
  · intro hrange
    have hcond : ¬(0 < n ∧ n ≤ 10000) := fun hc => hrange ⟨hc.1, hc.2⟩
    by_cases hl : 3 < utf16Len s
    · simp [handleCaloriesInput, hbtn, hp, hcond, hl]
    · simp [handleCaloriesInput, hbtn, hp, hcond, hl]

/-- C10 witness: the concrete plain integer 2000 is in range and is
accepted as a manual calories entry, advancing to the training state. -/
theorem calories_manual_accept_witness :
    IsPlainIntString "2000" 2000 ∧
    handleCaloriesInput uCalories "2000" 1 =
      (uCalories.updateInputState .waiting_for_training
        (some { nutrition := some { calories := { value := (2000 : ℚ), source := .manual } } }) 1,
       .caloriesAcceptedMenu) :=
  have hd : IsPlainIntString "2000" 2000 := ⟨by decide, by decide, by decide⟩
  ⟨hd, (calories_manual_accept_iff_in_range uCalories 1 "2000" 2000 hd).1 (by norm_num)⟩

end SlimFit
